import Mathlib

/-
Verification development for the experiment utilities of this repository
(src/fiftyone/utils/experiments.py) and for the identity-map, schema and
run-registry contracts that the repository states and tests.

Two shallow embeddings are built below.

1. A run-registry model: functions whose bodies live in
   src/fiftyone/utils/experiments.py are translated line by line; the
   primitives of fiftyone.core.experiment and fiftyone.core.dataset, which
   this repository only calls (register_run, save_run_results,
   load_run_results, update_run_config, dataset clone and delete), are not
   under src/ and are modelled from the specification, as marked in their
   doc comments.  Registry state carries a ghost event trace so that the
   order of side effects is observable.

2. A world model for Datasets, Samples and the per-dataset identity map
   (fiftyone.core.dataset and fiftyone.core.sample are not under src/,
   only their unit tests are), modelled from the specification and checked
   against the scenarios of src/tests/unittests.py.
-/

set_option maxHeartbeats 1000000

/-! # Definitions -/

/-! ## Generic association-list helpers -/

def assoc {κ α : Type} [DecidableEq κ] (k : κ) : List (κ × α) → Option α
  | [] => none
  | p :: rest => if p.1 = k then some p.2 else assoc k rest

def eraseA {κ α : Type} [DecidableEq κ] (k : κ) : List (κ × α) → List (κ × α)
  | [] => []
  | p :: rest => if p.1 = k then eraseA k rest else p :: eraseA k rest

def setA {κ α : Type} [DecidableEq κ] (k : κ) (v : α) (l : List (κ × α)) : List (κ × α) :=
  (k, v) :: eraseA k l

/-! ## Python str.split, embedded at the character-list level

`pySplit sep s` is Python `s.split(sep)` for a one-character separator:
the list of maximal chunks of `s` between occurrences of `sep`.  It is
never empty, and its head is the part of `s` before the first occurrence
of `sep` (the whole of `s` when `sep` does not occur). -/

def pySplit (sep : Char) : List Char → List (List Char)
  | [] => [[]]
  | c :: cs =>
    match pySplit sep cs with
    | [] => [[]]
    | w :: ws => if c = sep then [] :: w :: ws else (c :: w) :: ws

def pySplitHead (sep : Char) (s : List Char) : List Char :=
  (pySplit sep s).headD []

/-! ## The auxiliary-collection naming convention (src/fiftyone/utils/experiments.py)

`experimentPref` embeds the module constant EXPERIMENT_PREFIX = "experiment". -/

def experimentPref : String := "experiment"

/-- A sample collection, as the registry functions see it: its dataset name
and the sample collection name of its root dataset. -/
structure SampleCollection where
  name : String
  root_collection_name : String
deriving DecidableEq

/-- Embeds _make_exp_collection_name (lines 130-133): the format string
"%s.%s-%s" % (EXPERIMENT_PREFIX, root_coll_name, exp_key), where
root_coll_name is samples._root_dataset._sample_collection_name. -/
def make_exp_collection_name (samples : SampleCollection) (exp_key : String) : String :=
  experimentPref ++ "." ++ samples.root_collection_name ++ "-" ++ exp_key

/-- Embeds _get_parent_sample_collection_name (lines 136-138):
exp_coll_name.split("-")[0], then the slice [len(EXPERIMENT_PREFIX + "."):]. -/
def get_parent_sample_collection_name (exp_coll_name : String) : String :=
  ⟨(pySplitHead '-' exp_coll_name.data).drop (experimentPref ++ ".").length⟩

/-! ## Run-registry model

The state below is the run registry of one samples collection plus the set
of datasets that exist in the process, together with a ghost event trace
recording the order of committed side effects.  Errors follow the taxonomy
of section 7 of the spec. -/

inductive PyErr
  | valueError
  | alreadyExists
  | notFound
deriving DecidableEq

/-- Embeds ManualExperimentBackendConfig (lines 207-215): label_fields from
the base ExperimentBackendConfig, plus exp_key and exp_dir. -/
structure ManualConfig where
  label_fields : Option (List String)
  exp_key : String
  exp_dir : Option String
deriving DecidableEq

/-- Embeds ManualExperimentResults / ExperimentResults (lines 147-236): the
samples collection name, the backend config (results.config is
backend.config, the config the results were built with), and the name of
the auxiliary experiment dataset. -/
structure ResultsR where
  samplesName : String
  config : ManualConfig
  exp_dataset_name : String
deriving DecidableEq

/-- A dataset record: its name, its sample collection name, and its
persistence flag. -/
structure DatasetRec where
  name : String
  collection : String
  persistent : Bool
deriving DecidableEq

inductive Event
  | checkedRequirements
  | createdDataset (name : String)
  | deletedDataset (name : String)
  | registeredRun (key : String) (overwrite : Bool)
  | savedResults (key : String)
  | updatedConfig (key : String)
  | loadedResults (key : String)
  | deletedRunRecord (key : String)
deriving DecidableEq

/-- The run registry of one samples collection (runKeys, runConfigs,
runResults keyed by run key), the datasets existing in the process, and the
ghost trace. -/
structure RegistryState where
  runKeys : List String
  runConfigs : List (String × ManualConfig)
  runResults : List (String × ResultsR)
  dsets : List DatasetRec
  events : List Event
deriving DecidableEq

/-- Modelled from the spec: run registration (section 4.4) "register(key,
overwrite=False): fails AlreadyExists if key is already registered on this
Dataset and overwrite is false"; the run record stores the run key and the
configuration.  fiftyone.core.experiment.ExperimentMethod.register_run is
not under src/. -/
def register_run (st : RegistryState) (key : String) (config : ManualConfig)
    (overwrite : Bool) : RegistryState × Except PyErr Unit :=
  if key ∈ st.runKeys ∧ overwrite = false then (st, .error .alreadyExists)
  else
    ({ st with
        runKeys := if key ∈ st.runKeys then st.runKeys else key :: st.runKeys,
        runConfigs := setA key config st.runConfigs,
        events := st.events ++ [.registeredRun key overwrite] },
      .ok ())

/-- Modelled from the spec: save_run_results stores the results payload for
the run key (section 4.4 state save_results).  Not under src/. -/
def save_run_results (st : RegistryState) (key : String) (r : ResultsR) : RegistryState :=
  { st with
      runResults := setA key r st.runResults,
      events := st.events ++ [.savedResults key] }

/-- Modelled from the spec: load_run_results returns the saved results
payload of the run key, NotFound when absent (section 7 taxonomy).
fiftyone.core.experiment.ExperimentMethod.load_run_results is not under
src/. -/
def load_run_results (st : RegistryState) (key : String) :
    RegistryState × Except PyErr ResultsR :=
  match assoc key st.runResults with
  | some r => ({ st with events := st.events ++ [.loadedResults key] }, .ok r)
  | none => (st, .error .notFound)

/-- Modelled from the spec: update_run_config re-persists the configuration
stored in the run record (section 4.4).  Not under src/. -/
def update_run_config (st : RegistryState) (key : String) (c : ManualConfig) : RegistryState :=
  { st with
      runConfigs := setA key c st.runConfigs,
      events := st.events ++ [.updatedConfig key] }

/-- Modelled from the spec: creating a dataset binds a fresh name or fails
AlreadyExists on a duplicate dataset name (sections 4.1 and 7);
fod._clone_dataset_or_view is not under src/. -/
def clone_dataset (st : RegistryState) (name coll : String) :
    RegistryState × Except PyErr Unit :=
  if name ∈ st.dsets.map DatasetRec.name then (st, .error .alreadyExists)
  else
    ({ st with
        dsets := ⟨name, coll, false⟩ :: st.dsets,
        events := st.events ++ [.createdDataset name] },
      .ok ())

/-- Setting the persistent flag of a dataset (exp_dataset.persistent = True,
line 126). -/
def set_persistent (st : RegistryState) (name : String) (p : Bool) : RegistryState :=
  { st with
      dsets := st.dsets.map (fun d => if d.name = name then ⟨d.name, d.collection, p⟩ else d) }

/-- Modelled from the spec: Dataset.delete removes the dataset and its
storage collection (section 4.1); used for exp_dataset.delete() on line 103.
Not under src/. -/
def delete_dataset (st : RegistryState) (name : String) : RegistryState :=
  { st with
      dsets := st.dsets.filter (fun d => decide (¬ d.name = name)),
      events := st.events ++ [.deletedDataset name] }

/-- Modelled from the spec: the manual backend has no package requirements,
so ensure_requirements succeeds without touching registry state; only the
ghost trace records that the check ran.  Not under src/. -/
def ensure_requirements (st : RegistryState) : RegistryState :=
  { st with events := st.events ++ [.checkedRequirements] }

/-- The dataset name "%s-experiment-%s" % (view.name, exp_key) from line
119; the select_fields view of samples keeps the name of samples. -/
def exp_name (samples : SampleCollection) (exp_key : String) : String :=
  samples.name ++ "-experiment-" ++ exp_key

/-- Embeds _parse_config (lines 64-74): None selects "manual"; "manual"
yields a ManualExperimentBackendConfig(label_fields, exp_key) (exp_dir stays
at its default); any other identifier raises ValueError. -/
def parse_config (backend : Option String) (label_fields : Option (List String))
    (exp_key : String) : Except PyErr ManualConfig :=
  match backend with
  | none => .ok ⟨label_fields, exp_key, none⟩
  | some b => if b = "manual" then .ok ⟨label_fields, exp_key, none⟩ else .error .valueError

/-- Embeds ExperimentBackend.create_experiment_dataset (lines 115-127): the
select_fields view keeps the name and root collection of samples; the clone
gets name exp_name and collection _make_exp_collection_name, and is then
made persistent. -/
def create_experiment_dataset (st : RegistryState) (samples : SampleCollection)
    (exp_key : String) : RegistryState × Except PyErr String :=
  let en := exp_name samples exp_key
  let coll := make_exp_collection_name samples exp_key
  match clone_dataset st en coll with
  | (st1, .error e) => (st1, .error e)
  | (st1, .ok _) => (set_persistent st1 en true, .ok en)

/-- Embeds ExperimentResults.add_model_run (lines 171-172): the body is
pass, so the results object is returned unchanged. -/
def results_add_model_run (r : ResultsR) (run_key preds : String) : ResultsR :=
  r

/-- Embeds ManualExperimentResults.cleanup (lines 235-236): the body is
pass, so no backend-side information is deleted. -/
def manual_results_cleanup (st : RegistryState) : RegistryState :=
  st

/-- The body of register_experiment (lines 30-46) after config parsing:
build + ensure_requirements, create_experiment_dataset, construct_experiment
(ManualExperimentBackend.construct_experiment, lines 219-223, builds
ManualExperimentResults(samples, config, exp_dataset_name)), register_run
with overwrite=False, save_run_results. -/
def register_with_config (st : RegistryState) (samples : SampleCollection)
    (exp_key : String) (config : ManualConfig) : RegistryState × Except PyErr ResultsR :=
  let st1 := ensure_requirements st
  match create_experiment_dataset st1 samples exp_key with
  | (st2, .error e) => (st2, .error e)
  | (st2, .ok edn) =>
    let results : ResultsR := ⟨samples.name, config, edn⟩
    match register_run st2 exp_key config false with
    | (st3, .error e) => (st3, .error e)
    | (st3, .ok _) => (save_run_results st3 exp_key results, .ok results)

/-- Embeds register_experiment (lines 23-46).  A failure returns the state
committed so far together with the error, mirroring an exception raised
part-way through the Python body. -/
def register_experiment (st : RegistryState) (samples : SampleCollection)
    (exp_key : String) (label_fields : Option (List String)) (backend : Option String) :
    RegistryState × Except PyErr ResultsR :=
  match parse_config backend label_fields exp_key with
  | .error e => (st, .error e)
  | .ok config => register_with_config st samples exp_key config

/-- Embeds add_model_run (lines 49-61): load the run results, call
results.add_model_run, update the run config with results.config, save the
results again, return them. -/
def add_model_run (st : RegistryState) (exp_key run_key preds : String) :
    RegistryState × Except PyErr ResultsR :=
  match load_run_results st exp_key with
  | (st1, .error e) => (st1, .error e)
  | (st1, .ok results) =>
    let results := results_add_model_run results run_key preds
    let st2 := update_run_config st1 exp_key results.config
    let st3 := save_run_results st2 exp_key results
    (st3, .ok results)

/-- Embeds ExperimentBackend.cleanup (lines 100-104): load the run results,
delete the auxiliary experiment dataset, call results.cleanup() (pass for
the manual backend). -/
def backend_cleanup (st : RegistryState) (exp_key : String) :
    RegistryState × Except PyErr Unit :=
  match load_run_results st exp_key with
  | (st1, .error e) => (st1, .error e)
  | (st1, .ok results) =>
    let st2 := delete_dataset st1 results.exp_dataset_name
    let st3 := manual_results_cleanup st2
    (st3, .ok ())

/-- Modelled from the spec: the registry deletion of the run record, so that
"the run key becomes available for re-registration" (section 4.4 cleanup and
the state machine edge cleanup to unregistered).  The registry side of run
deletion lives in fiftyone.core.experiment, which is not under src/. -/
def delete_run_record (st : RegistryState) (key : String) : RegistryState :=
  { st with
      runKeys := st.runKeys.filter (fun x => decide (¬ x = key)),
      runConfigs := eraseA key st.runConfigs,
      runResults := eraseA key st.runResults,
      events := st.events ++ [.deletedRunRecord key] }

/-- The full cleanup transition of a run: the ExperimentBackend.cleanup body
from src (backend_cleanup), followed by the spec-modelled registry deletion
of the run record. -/
def cleanup_run (st : RegistryState) (exp_key : String) :
    RegistryState × Except PyErr Unit :=
  match backend_cleanup st exp_key with
  | (st1, .error e) => (st1, .error e)
  | (st1, .ok _) => (delete_run_record st1 exp_key, .ok ())

/-! ## World model: Datasets, Samples, identity map, schema, views

Modelled from the spec (sections 3, 4.1, 4.2, 4.3): the Dataset and Sample
classes of fiftyone.core are not under src/, only their unit tests are.
Python object identity is modelled by an object heap: a Sample object is a
heap index, and reference identity is index equality.  `storeReads` counts
round trips to the store adapter, so "without a store round trip" is
observable. -/

inductive FieldKind
  | scalarK
  | listK
deriving DecidableEq

/-- Field values, restricted to the shapes the claims exercise. -/
inductive Value
  | vNone
  | vBool (b : Bool)
  | vInt (n : Int)
  | vStr (s : String)
  | vStrList (l : List String)
deriving DecidableEq

/-- Modelled from the spec (section 4.2): the kind-appropriate default of a
field a cached sample has no stored value for: absent scalar (None), empty
ordered sequence for list kinds. -/
def defaultValue : FieldKind → Value
  | .scalarK => .vNone
  | .listK => .vStrList []

/-- Modelled from the spec (section 4.2 expand): the kind inferred from a
runtime value's shape. -/
def inferKind : Value → FieldKind
  | .vStrList _ => .listK
  | _ => .scalarK

/-- A Sample object in the heap: optional stored id (none when detached),
optional owning-dataset back-reference, and the ordered field mapping of
values that have been set. -/
structure SampleObj where
  sid : Option Nat
  dsName : Option String
  fields : List (String × Value)
deriving DecidableEq

/-- A Dataset: name, schema registry, identity map (stored id to heap
index), and backing store (stored id to document fields, insertion
order). -/
structure DatasetM where
  name : String
  schema : List (String × FieldKind)
  idMap : List (Nat × Nat)
  store : List (Nat × List (String × Value))
deriving DecidableEq

/-- The in-process world: the object heap, the datasets, the next fresh
stored id, and the count of store-adapter round trips. -/
structure World where
  heap : List SampleObj
  dsets : List DatasetM
  nextId : Nat
  storeReads : Nat
deriving DecidableEq

def findDS (w : World) (n : String) : Option DatasetM :=
  w.dsets.find? (fun d => decide (d.name = n))

/-- Modelled from the spec (section 4.2 expand): for each document field
unknown to the schema, infer a kind and add the field. -/
def expandSchema (schema : List (String × FieldKind)) (flds : List (String × Value)) :
    List (String × FieldKind) :=
  flds.foldl
    (fun sc fv => if fv.1 ∈ sc.map Prod.fst then sc else sc ++ [(fv.1, inferKind fv.2)])
    schema

/-- Modelled from the spec (section 4.1 get): resolving a stored id through
the identity map.  On a cache hit the cached heap index is returned with no
store round trip and no state change; on a miss the document is fetched
from the store (one round trip), a new Sample object is pushed on the heap
and cached; a missing id is NotFound. -/
def resolve (w : World) (dn : String) (sid : Nat) : World × Except PyErr Nat :=
  match findDS w dn with
  | none => (w, .error .notFound)
  | some ds =>
    match assoc sid ds.idMap with
    | some i => (w, .ok i)
    | none =>
      match assoc sid ds.store with
      | none => ({ w with storeReads := w.storeReads + 1 }, .error .notFound)
      | some doc =>
        let i := w.heap.length
        ({ w with
            heap := w.heap ++ [⟨some sid, some dn, doc⟩],
            dsets := w.dsets.map
              (fun d => if d.name = dn then { d with idMap := (sid, i) :: d.idMap } else d),
            storeReads := w.storeReads + 1 },
          .ok i)

/-- Modelled from the spec (section 4.1): Dataset.get / dataset[id], which
is resolution through the identity map. -/
def dataset_get (w : World) (dn : String) (sid : Nat) : World × Except PyErr Nat :=
  resolve w dn sid

/-- Modelled from the spec (section 4.1 add): adding a Sample object to a
dataset.  An attached sample (including one attached to this dataset) is
value-copied into a fresh object with a freshly generated id, the original
object untouched; a detached sample is attached in place and becomes the
cached singleton for the new id.  The schema expands with the document's
fields. -/
def add_sample (w : World) (dn : String) (i : Nat) : World × Except PyErr Nat :=
  match findDS w dn with
  | none => (w, .error .notFound)
  | some _ =>
    match w.heap.get? i with
    | none => (w, .error .notFound)
    | some obj =>
      let sid := w.nextId
      match obj.sid with
      | some _ =>
        let j := w.heap.length
        ({ w with
            heap := w.heap ++ [⟨some sid, some dn, obj.fields⟩],
            dsets := w.dsets.map
              (fun d =>
                if d.name = dn then
                  { d with
                      idMap := (sid, j) :: d.idMap,
                      store := d.store ++ [(sid, obj.fields)],
                      schema := expandSchema d.schema obj.fields }
                else d),
            nextId := sid + 1 },
          .ok sid)
      | none =>
        ({ w with
            heap := w.heap.set i ⟨some sid, some dn, obj.fields⟩,
            dsets := w.dsets.map
              (fun d =>
                if d.name = dn then
                  { d with
                      idMap := (sid, i) :: d.idMap,
                      store := d.store ++ [(sid, obj.fields)],
                      schema := expandSchema d.schema obj.fields }
                else d),
            nextId := sid + 1 },
          .ok sid)

/-- Modelled from the spec (section 4.2 add_field): fails AlreadyExists if
the name is taken; on success only the schema registry of the dataset
changes — no sample object is touched and no store fetch happens. -/
def add_field (w : World) (dn fname : String) (kind : FieldKind) :
    World × Except PyErr Unit :=
  match findDS w dn with
  | none => (w, .error .notFound)
  | some ds =>
    if fname ∈ ds.schema.map Prod.fst then (w, .error .alreadyExists)
    else
      ({ w with
          dsets := w.dsets.map
            (fun d =>
              if d.name = dn then { d with schema := d.schema ++ [(fname, kind)] } else d) },
        .ok ())

/-- Modelled from the spec (sections 3 and 4.2): field access on a cached
Sample object.  A set value is returned directly; an unset field that is in
the owning dataset's schema yields the kind-appropriate default; anything
else is an attribute error (here NotFound).  The function reads only the
heap and the schema registry — by construction it cannot re-fetch from the
store. -/
def get_field (w : World) (i : Nat) (fname : String) : Except PyErr Value :=
  match w.heap.get? i with
  | none => .error .notFound
  | some obj =>
    match assoc fname obj.fields with
    | some v => .ok v
    | none =>
      match obj.dsName with
      | none => .error .notFound
      | some dn =>
        match findDS w dn with
        | none => .error .notFound
        | some ds =>
          match assoc fname ds.schema with
          | some k => .ok (defaultValue k)
          | none => .error .notFound

/-- Modelled from the spec (section 4.3): the first element of a match view,
resolved through the source dataset's identity map, so it is
reference-identical to the object obtained by direct id lookup. -/
def view_first_match (w : World) (dn : String)
    (pred : List (String × Value) → Bool) : World × Except PyErr Nat :=
  match findDS w dn with
  | none => (w, .error .notFound)
  | some ds =>
    match ds.store.find? (fun d => pred d.2) with
    | none => (w, .error .notFound)
    | some d => resolve w dn d.1

/-- Well-formedness of a dataset's identity map inside a world: every cached
entry points at a live heap object carrying that stored id and this
dataset's back-reference, every set field of the object is in the schema
registry, and every cached stored id is below the fresh-id counter. -/
def wfDS (w : World) (ds : DatasetM) : Bool :=
  ds.idMap.all (fun p =>
    match w.heap.get? p.2 with
    | none => false
    | some obj =>
      decide (obj.sid = some p.1) && decide (obj.dsName = some ds.name) &&
      obj.fields.all (fun fv => decide (fv.1 ∈ ds.schema.map Prod.fst)) &&
      decide (p.1 < w.nextId))

def wfW (w : World) : Bool :=
  w.dsets.all (fun ds => wfDS w ds)

/-- The registry state after a successful register_experiment on a fresh run
key and a fresh auxiliary dataset name: keys, config and results recorded,
the persistent auxiliary dataset created, the trace extended in commit
order. -/
def registerOkState (st : RegistryState) (samples : SampleCollection) (key : String)
    (cfg : ManualConfig) : RegistryState :=
  { st with
      runKeys := key :: st.runKeys,
      runConfigs := setA key cfg st.runConfigs,
      runResults := setA key ⟨samples.name, cfg, exp_name samples key⟩ st.runResults,
      dsets := ⟨exp_name samples key, make_exp_collection_name samples key, true⟩ :: st.dsets,
      events := st.events ++ [.checkedRequirements, .createdDataset (exp_name samples key),
        .registeredRun key false, .savedResults key] }

/-! ## Concrete states for witnesses and counterexamples -/

def st0 : RegistryState := ⟨[], [], [], [], []⟩

def samples0 : SampleCollection := ⟨"d", "c"⟩

/-- The state after one successful register_experiment on samples0 with run
key "k". -/
def stReg : RegistryState := (register_experiment st0 samples0 "k" none none).1

/-- stReg with the auxiliary experiment dataset deleted directly
(Dataset.delete is a public operation, spec section 4.1), leaving run key
"k" registered while its auxiliary dataset name is free again. -/
def stRegDel : RegistryState := delete_dataset stReg "d-experiment-k"

def cfg0 : ManualConfig := ⟨none, "k", none⟩

def res0 : ResultsR := ⟨"d", cfg0, "d-experiment-k"⟩

/-- A world with one dataset "d1" holding one attached, cached sample at
heap index 0 with stored id 0, and an empty dataset "d2". -/
def wAttached : World :=
  ⟨[⟨some 0, some "d1", [("filepath", .vStr "a.png")]⟩],
    [⟨"d1", [("filepath", .scalarK)], [(0, 0)], [(0, [("filepath", .vStr "a.png")])]⟩,
      ⟨"d2", [], [], []⟩],
    1, 0⟩

/-- A world with one detached sample at heap index 0 and an empty dataset
"d". -/
def wDetached : World :=
  ⟨[⟨none, none, [("filepath", .vStr "b.png")]⟩],
    [⟨"d", [("filepath", .scalarK)], [], []⟩],
    5, 0⟩

/-- A world with dataset "d" whose store holds document 0, not yet cached. -/
def wStore : World :=
  ⟨[], [⟨"d", [("filepath", .scalarK)], [], [(0, [("filepath", .vStr "a.png")])]⟩], 1, 0⟩

/-- A world with dataset "d" holding one cached sample, used for the schema
broadcast witness. -/
def wCached : World :=
  ⟨[⟨some 0, some "d", [("filepath", .vStr "a.png")]⟩],
    [⟨"d", [("filepath", .scalarK)], [(0, 0)], [(0, [("filepath", .vStr "a.png")])]⟩],
    1, 0⟩

/-! # Lemmas and theorems -/

/-! ## Association-list lemmas -/

lemma assoc_cons_self {κ α : Type} [DecidableEq κ] (k : κ) (v : α) (l : List (κ × α)) :
    assoc k ((k, v) :: l) = some v := by
  simp [assoc]

lemma assoc_cons_ne {κ α : Type} [DecidableEq κ] (k k' : κ) (v : α) (l : List (κ × α))
    (h : k' ≠ k) : assoc k ((k', v) :: l) = assoc k l := by
  simp [assoc, h]

lemma assoc_setA_self {κ α : Type} [DecidableEq κ] (k : κ) (v : α) (l : List (κ × α)) :
    assoc k (setA k v l) = some v := by
  simp [setA, assoc]

lemma assoc_eraseA_self {κ α : Type} [DecidableEq κ] (k : κ) (l : List (κ × α)) :
    assoc k (eraseA k l) = none := by
  induction l with
  | nil => simp [eraseA, assoc]
  | cons p rest ih =>
    by_cases hp : p.1 = k
    · simpa [eraseA, hp] using ih
    · simpa [eraseA, assoc, hp] using ih

lemma assoc_some_mem {κ α : Type} [DecidableEq κ] {k : κ} {v : α} :
    ∀ {l : List (κ × α)}, assoc k l = some v → (k, v) ∈ l := by
  intro l
  induction l with
  | nil => intro h; simp [assoc] at h
  | cons p rest ih =>
    intro h
    by_cases hp : p.1 = k
    · obtain ⟨p1, p2⟩ := p
      simp only [assoc] at h
      rw [if_pos hp] at h
      injection h with h2
      subst hp
      subst h2
      exact List.mem_cons_self _ _
    · simp only [assoc, if_neg hp] at h
      exact List.mem_cons_of_mem _ (ih h)

lemma assoc_none_of_not_mem {κ α : Type} [DecidableEq κ] {k : κ} :
    ∀ {l : List (κ × α)}, k ∉ l.map Prod.fst → assoc k l = none := by
  intro l
  induction l with
  | nil => intro _; rfl
  | cons p rest ih =>
    intro h
    have hp : p.1 ≠ k := by
      intro hc
      exact h (by simp [hc])
    have hrest : k ∉ rest.map Prod.fst := by
      intro hc
      exact h (by simp [hc])
    simp only [assoc, if_neg hp]
    exact ih hrest

lemma assoc_append_single {κ α : Type} [DecidableEq κ] (k : κ) (v : α) :
    ∀ (l : List (κ × α)), assoc k l = none → assoc k (l ++ [(k, v)]) = some v := by
  intro l
  induction l with
  | nil => intro _; simp [assoc]
  | cons p rest ih =>
    intro h
    by_cases hp : p.1 = k
    · simp [assoc, if_pos hp] at h
    · simp only [assoc, if_neg hp] at h
      simpa [assoc, if_neg hp] using ih h

lemma filter_ne_of_not_mem (key : String) (l : List String) (h : key ∉ l) :
    l.filter (fun x => decide (¬ x = key)) = l := by
  refine List.filter_eq_self.mpr ?_
  intro a ha
  simp only [decide_eq_true_eq]
  intro hc
  exact h (hc ▸ ha)

/-! ## pySplit lemmas -/

lemma pySplit_ne_nil (sep : Char) (s : List Char) : pySplit sep s ≠ [] := by
  induction s with
  | nil => simp [pySplit]
  | cons c cs ih =>
    cases hp : pySplit sep cs with
    | nil => exact absurd hp ih
    | cons w ws =>
      simp only [pySplit, hp]
      split <;> simp

lemma pySplit_append (sep : Char) (ys : List Char) :
    ∀ xs : List Char, sep ∉ xs →
      pySplit sep (xs ++ sep :: ys) = xs :: pySplit sep ys := by
  intro xs
  induction xs with
  | nil =>
    intro _
    cases hp : pySplit sep ys with
    | nil => exact absurd hp (pySplit_ne_nil sep ys)
    | cons w ws => simp [pySplit, hp]
  | cons c cs ih =>
    intro h
    have hc : c ≠ sep := by
      intro hcc
      exact h (by simp [hcc])
    have ih' := ih (fun hm => h (List.mem_cons_of_mem c hm))
    simp [pySplit, ih', hc]

lemma pySplitHead_append (sep : Char) (ys xs : List Char) (h : sep ∉ xs) :
    pySplitHead sep (xs ++ sep :: ys) = xs := by
  rw [pySplitHead, pySplit_append sep ys xs h]
  rfl

lemma str_data_append (a b : String) : (a ++ b).data = a.data ++ b.data := rfl

/-! ## C1: the naming convention -/

/-- C1 counterexample: the claim conditions only the run key, but the
roundtrip already fails for the parent root collection name "a-b" with the
run key "k", which contains neither the separator - nor the prefix dot:
parsing splits on the first -, which here falls inside the parent name. -/
theorem claim_C1_cex :
    '-' ∉ "k".data ∧ '.' ∉ "k".data ∧
    get_parent_sample_collection_name (make_exp_collection_name ⟨"d", "a-b"⟩ "k") ≠ "a-b" := by
  decide

/-- C1 (amended): for every parent root collection name P that does not
contain the separator character - and every run key K (which may contain -),
_make_exp_collection_name produces exactly "experiment." + P + "-" + K and
_get_parent_sample_collection_name maps that string back to P. -/
theorem claim_C1 (samples : SampleCollection) (exp_key : String)
    (h : '-' ∉ samples.root_collection_name.data) :
    make_exp_collection_name samples exp_key
        = "experiment." ++ samples.root_collection_name ++ "-" ++ exp_key ∧
    get_parent_sample_collection_name (make_exp_collection_name samples exp_key)
        = samples.root_collection_name := by
  constructor
  · rfl
  · have hsep : '-' ∉ ("experiment.".data ++ samples.root_collection_name.data) := by
      intro hm
      rcases List.mem_append.mp hm with hm | hm
      · revert hm
        decide
      · exact h hm
    have hshape : (make_exp_collection_name samples exp_key).data
        = (("experiment.".data ++ samples.root_collection_name.data) ++ ['-'])
            ++ exp_key.data := rfl
    have hdata : (make_exp_collection_name samples exp_key).data
        = ("experiment.".data ++ samples.root_collection_name.data)
            ++ '-' :: exp_key.data := by
      rw [hshape, List.append_assoc]
      rfl
    show String.mk
        ((pySplitHead '-' (make_exp_collection_name samples exp_key).data).drop
          (experimentPref ++ ".").length)
        = samples.root_collection_name
    rw [hdata, pySplitHead_append '-' exp_key.data _ hsep]
    rw [show (experimentPref ++ ".").length = "experiment.".data.length from rfl]
    rw [List.drop_left]

/-- C1 witness: a run key containing - roundtrips as long as the parent
name is separator-free. -/
theorem claim_C1_witness :
    make_exp_collection_name ⟨"ds", "abc"⟩ "k-1"
        = "experiment." ++ "abc" ++ "-" ++ "k-1" ∧
    get_parent_sample_collection_name (make_exp_collection_name ⟨"ds", "abc"⟩ "k-1")
        = "abc" :=
  claim_C1 ⟨"ds", "abc"⟩ "k-1" (by decide)

/-! ## Registry characterization lemmas -/

lemma map_if_name_eq_id (n : String) (g : DatasetRec → DatasetRec) :
    ∀ (l : List DatasetRec), n ∉ l.map DatasetRec.name →
      l.map (fun d => if d.name = n then g d else d) = l := by
  intro l
  induction l with
  | nil => intro _; rfl
  | cons d rest ih =>
    intro h
    have hd : ¬ d.name = n := by
      intro hc
      exact h (by simp [hc])
    have hrest : n ∉ rest.map DatasetRec.name := by
      intro hc
      exact h (by simp [hc])
    simp [hd, ih hrest]

lemma filter_name_ne (n : String) (l : List DatasetRec) (h : n ∉ l.map DatasetRec.name) :
    l.filter (fun d => decide (¬ d.name = n)) = l := by
  refine List.filter_eq_self.mpr ?_
  intro d hd
  simp only [decide_eq_true_eq]
  intro hc
  exact h (List.mem_map.mpr ⟨d, hd, hc⟩)

lemma rwc_dup_name (st : RegistryState) (samples : SampleCollection) (key : String)
    (cfg : ManualConfig) (h1 : exp_name samples key ∈ st.dsets.map DatasetRec.name) :
    register_with_config st samples key cfg = (ensure_requirements st, .error .alreadyExists) := by
  simp [register_with_config, create_experiment_dataset, clone_dataset, ensure_requirements, h1]

lemma rwc_dup_key (st : RegistryState) (samples : SampleCollection) (key : String)
    (cfg : ManualConfig) (h1 : exp_name samples key ∉ st.dsets.map DatasetRec.name)
    (h2 : key ∈ st.runKeys) :
    register_with_config st samples key cfg =
      ({ st with
          dsets := ⟨exp_name samples key, make_exp_collection_name samples key, true⟩ :: st.dsets,
          events := st.events ++ [.checkedRequirements, .createdDataset (exp_name samples key)] },
        .error .alreadyExists) := by
  simp [register_with_config, create_experiment_dataset, clone_dataset, ensure_requirements,
        set_persistent, register_run, h1, h2, map_if_name_eq_id _ _ _ h1, List.append_assoc]

lemma rwc_ok (st : RegistryState) (samples : SampleCollection) (key : String)
    (cfg : ManualConfig) (h1 : exp_name samples key ∉ st.dsets.map DatasetRec.name)
    (h2 : key ∉ st.runKeys) :
    register_with_config st samples key cfg =
      (registerOkState st samples key cfg, .ok ⟨samples.name, cfg, exp_name samples key⟩) := by
  simp [register_with_config, create_experiment_dataset, clone_dataset, ensure_requirements,
        set_persistent, register_run, save_run_results, registerOkState, h1, h2,
        map_if_name_eq_id _ _ _ h1, List.append_assoc]

lemma register_experiment_ok_inv (st : RegistryState) (samples : SampleCollection)
    (key : String) (lf : Option (List String)) (b : Option String)
    (st1 : RegistryState) (r : ResultsR)
    (h : register_experiment st samples key lf b = (st1, .ok r)) :
    parse_config b lf key = .ok ⟨lf, key, none⟩ ∧
    exp_name samples key ∉ st.dsets.map DatasetRec.name ∧
    key ∉ st.runKeys ∧
    r = ⟨samples.name, ⟨lf, key, none⟩, exp_name samples key⟩ ∧
    st1 = registerOkState st samples key ⟨lf, key, none⟩ := by
  have hp : parse_config b lf key = .ok ⟨lf, key, none⟩ := by
    cases b with
    | none => rfl
    | some s =>
      by_cases hs : s = "manual"
      · simp [parse_config, hs]
      · exfalso
        simp [register_experiment, parse_config, hs] at h
  have hrwc : register_with_config st samples key ⟨lf, key, none⟩ = (st1, .ok r) := by
    simp only [register_experiment, hp] at h
    exact h
  by_cases h1 : exp_name samples key ∈ st.dsets.map DatasetRec.name
  · rw [rwc_dup_name st samples key _ h1] at hrwc
    exact absurd hrwc (by simp)
  · by_cases h2 : key ∈ st.runKeys
    · rw [rwc_dup_key st samples key _ h1 h2] at hrwc
      exact absurd hrwc (by simp)
    · rw [rwc_ok st samples key _ h1 h2] at hrwc
      rw [Prod.mk.injEq] at hrwc
      obtain ⟨hst, hres⟩ := hrwc
      injection hres with hr
      exact ⟨hp, h1, h2, hr.symm, hst.symm⟩

lemma cleanup_after_register (st : RegistryState) (samples : SampleCollection)
    (key : String) (cfg : ManualConfig)
    (h1 : exp_name samples key ∉ st.dsets.map DatasetRec.name)
    (h2 : key ∉ st.runKeys) :
    (cleanup_run (registerOkState st samples key cfg) key).2 = .ok () ∧
    (cleanup_run (registerOkState st samples key cfg) key).1.runKeys = st.runKeys ∧
    (cleanup_run (registerOkState st samples key cfg) key).1.dsets = st.dsets ∧
    (cleanup_run (registerOkState st samples key cfg) key).1.events =
      (registerOkState st samples key cfg).events ++ [.loadedResults key,
        .deletedDataset (exp_name samples key), .deletedRunRecord key] := by
  refine ⟨?_, ?_, ?_, ?_⟩
  · simp [cleanup_run, backend_cleanup, load_run_results, manual_results_cleanup,
      delete_dataset, delete_run_record, registerOkState, assoc_setA_self, List.append_assoc]
  · simp [cleanup_run, backend_cleanup, load_run_results, manual_results_cleanup,
      delete_dataset, delete_run_record, registerOkState, assoc_setA_self, List.append_assoc]
    intro a ha hc
    exact h2 (hc ▸ ha)
  · simp [cleanup_run, backend_cleanup, load_run_results, manual_results_cleanup,
      delete_dataset, delete_run_record, registerOkState, assoc_setA_self, List.append_assoc]
    intro a ha hc
    exact h1 (List.mem_map.mpr ⟨a, ha, hc⟩)
  · simp [cleanup_run, backend_cleanup, load_run_results, manual_results_cleanup,
      delete_dataset, delete_run_record, registerOkState, assoc_setA_self, List.append_assoc]

/-! ## C4: unsupported backends fail fast; None selects "manual" -/

/-- C4: for every backend identifier other than None and "manual",
register_experiment returns ValueError with the state (trace included)
untouched — no requirements check, no dataset creation, no registration, no
results saved; and for backend None, _parse_config selects the manual
backend configuration. -/
theorem claim_C4 (st : RegistryState) (samples : SampleCollection) (key : String)
    (lf : Option (List String)) (s : String) (hs : s ≠ "manual") :
    register_experiment st samples key lf (some s) = (st, .error .valueError) ∧
    parse_config none lf key = .ok ⟨lf, key, none⟩ := by
  constructor
  · simp [register_experiment, parse_config, hs]
  · rfl

/-- C4 witness at the backend identifier "mlflow". -/
theorem claim_C4_witness :
    register_experiment st0 samples0 "k" none (some "mlflow") = (st0, .error .valueError) ∧
    parse_config none none "k" = .ok ⟨none, "k", none⟩ :=
  claim_C4 st0 samples0 "k" none "mlflow" (by decide)

/-! ## C5: registration always uses overwrite=False; duplicate keys fail -/

/-- C5: every successful register_experiment registers its run with
overwrite=False (visible in the committed trace), and a second
register_experiment with the same exp_key on the same samples collection
fails AlreadyExists. -/
theorem claim_C5 (st : RegistryState) (samples : SampleCollection) (key : String)
    (lf : Option (List String)) (b : Option String) (st1 : RegistryState) (r : ResultsR)
    (h : register_experiment st samples key lf b = (st1, .ok r)) :
    st1.events = st.events ++ [.checkedRequirements, .createdDataset (exp_name samples key),
      .registeredRun key false, .savedResults key] ∧
    (register_experiment st1 samples key lf b).2 = .error .alreadyExists := by
  obtain ⟨hp, h1, h2, hr, hst⟩ := register_experiment_ok_inv st samples key lf b st1 r h
  subst hst
  constructor
  · simp [registerOkState]
  · have hmem : exp_name samples key ∈
        (registerOkState st samples key ⟨lf, key, none⟩).dsets.map DatasetRec.name := by
      simp [registerOkState]
    simp only [register_experiment, hp]
    rw [rwc_dup_name _ samples key _ hmem]

/-- C5 witness: registering run key "k" twice on samples0. -/
theorem claim_C5_witness :
    stReg.events = st0.events ++ [.checkedRequirements, .createdDataset (exp_name samples0 "k"),
      .registeredRun "k" false, .savedResults "k"] ∧
    (register_experiment stReg samples0 "k" none none).2 = .error .alreadyExists :=
  claim_C5 st0 samples0 "k" none none stReg res0 (by rfl)

/-! ## C2: what a failing register_experiment leaves behind -/

/-- C2 counterexample: after registering run key "k" and then deleting the
auxiliary dataset directly (Dataset.delete is public), a second
register_experiment with key "k" fails AlreadyExists at register_run — but
the auxiliary experiment Dataset it created beforehand remains behind the
failure, so the claim that no newly created auxiliary Dataset survives a
failing call is false. -/
theorem claim_C2_cex :
    (register_experiment stRegDel samples0 "k" none none).2 = .error .alreadyExists ∧
    DatasetRec.mk "d-experiment-k" "experiment.c-k" true
        ∈ (register_experiment stRegDel samples0 "k" none none).1.dsets ∧
    DatasetRec.mk "d-experiment-k" "experiment.c-k" true ∉ stRegDel.dsets :=
  ⟨rfl, by decide, by decide⟩

/-- C2 (amended): a failing register_experiment leaves all previously
committed registry and dataset state unchanged — run keys, run configs,
results records and the pre-existing datasets are exactly as before — but
when the failure happens at register_run (duplicate key while the auxiliary
dataset name was free), the auxiliary Dataset newly created by the failing
call remains; the created dataset is not rolled back. -/
theorem claim_C2 (st : RegistryState) (samples : SampleCollection) (key : String)
    (lf : Option (List String)) (b : Option String) (st' : RegistryState) (e : PyErr)
    (h : register_experiment st samples key lf b = (st', .error e)) :
    st'.runKeys = st.runKeys ∧ st'.runConfigs = st.runConfigs ∧
    st'.runResults = st.runResults ∧
    (st'.dsets = st.dsets ∨
      st'.dsets = ⟨exp_name samples key, make_exp_collection_name samples key, true⟩
        :: st.dsets) := by
  have hgoal : ∀ st'' : RegistryState,
      register_with_config st samples key ⟨lf, key, none⟩ = (st'', .error e) →
      st''.runKeys = st.runKeys ∧ st''.runConfigs = st.runConfigs ∧
      st''.runResults = st.runResults ∧
      (st''.dsets = st.dsets ∨
        st''.dsets = ⟨exp_name samples key, make_exp_collection_name samples key, true⟩
          :: st.dsets) := by
    intro st'' h'
    by_cases h1 : exp_name samples key ∈ st.dsets.map DatasetRec.name
    · rw [rwc_dup_name st samples key _ h1] at h'
      rw [Prod.mk.injEq] at h'
      obtain ⟨hst, _⟩ := h'
      rw [← hst]
      simp [ensure_requirements]
    · by_cases h2 : key ∈ st.runKeys
      · rw [rwc_dup_key st samples key _ h1 h2] at h'
        rw [Prod.mk.injEq] at h'
        obtain ⟨hst, _⟩ := h'
        rw [← hst]
        simp
      · rw [rwc_ok st samples key _ h1 h2] at h'
        exact absurd h' (by simp)
  cases b with
  | none =>
    simp only [register_experiment, parse_config] at h
    exact hgoal st' h
  | some s =>
    by_cases hs : s = "manual"
    · subst hs
      simp only [register_experiment, parse_config, if_pos rfl] at h
      exact hgoal st' h
    · simp only [register_experiment, parse_config, if_neg hs] at h
      rw [Prod.mk.injEq] at h
      obtain ⟨hst, _⟩ := h
      rw [← hst]
      simp

/-- C2 witness: the frame part of the amended claim at the counterexample
input. -/
theorem claim_C2_witness :
    (register_experiment stRegDel samples0 "k" none none).1.runKeys = stRegDel.runKeys ∧
    (register_experiment stRegDel samples0 "k" none none).1.runConfigs
        = stRegDel.runConfigs ∧
    (register_experiment stRegDel samples0 "k" none none).1.runResults
        = stRegDel.runResults ∧
    ((register_experiment stRegDel samples0 "k" none none).1.dsets = stRegDel.dsets ∨
      (register_experiment stRegDel samples0 "k" none none).1.dsets
        = ⟨exp_name samples0 "k", make_exp_collection_name samples0 "k", true⟩
          :: stRegDel.dsets) :=
  claim_C2 stRegDel samples0 "k" none none
    (register_experiment stRegDel samples0 "k" none none).1 .alreadyExists (by rfl)

/-! ## C3: cleanup deletes the dataset, then the record; the key is free -/

/-- C3: after a successful register_experiment, the cleanup of the run
succeeds, its trace deletes the auxiliary experiment Dataset first and the
run record afterwards, and a subsequent register_experiment with the same
exp_key on the same samples collection succeeds again.  The registry-side
deletion of the run record is modelled from the spec (section 4.4), since
fiftyone.core.experiment is not under src/. -/
theorem claim_C3 (st : RegistryState) (samples : SampleCollection) (key : String)
    (lf : Option (List String)) (b : Option String) (st1 : RegistryState) (r : ResultsR)
    (h : register_experiment st samples key lf b = (st1, .ok r)) :
    (cleanup_run st1 key).2 = .ok () ∧
    (cleanup_run st1 key).1.events = st1.events ++ [.loadedResults key,
      .deletedDataset (exp_name samples key), .deletedRunRecord key] ∧
    (register_experiment (cleanup_run st1 key).1 samples key lf b).2
        = .ok ⟨samples.name, ⟨lf, key, none⟩, exp_name samples key⟩ := by
  obtain ⟨hp, h1, h2, hr, hst⟩ := register_experiment_ok_inv st samples key lf b st1 r h
  subst hst
  obtain ⟨c1, c2, c3, c4⟩ := cleanup_after_register st samples key ⟨lf, key, none⟩ h1 h2
  refine ⟨c1, c4, ?_⟩
  simp only [register_experiment, hp]
  rw [rwc_ok _ samples key _ (by rw [c3]; exact h1) (by rw [c2]; exact h2)]

/-- C3 witness: register "k", clean it up, register "k" again. -/
theorem claim_C3_witness :
    (cleanup_run stReg "k").2 = .ok () ∧
    (cleanup_run stReg "k").1.events = stReg.events ++ [.loadedResults "k",
      .deletedDataset (exp_name samples0 "k"), .deletedRunRecord "k"] ∧
    (register_experiment (cleanup_run stReg "k").1 samples0 "k" none none).2
        = .ok ⟨samples0.name, ⟨none, "k", none⟩, exp_name samples0 "k"⟩ :=
  claim_C3 st0 samples0 "k" none none stReg res0 (by rfl)

/-! ## C6: add_model_run re-persists the config, then re-saves the results -/

/-- C6: whenever results are saved under exp_key, add_model_run returns
those results, and its committed state stores the results' config for
exp_key (update_run_config) and then the results again (save_run_results),
in that order in the trace, before the results are returned. -/
theorem claim_C6 (st : RegistryState) (exp_key run_key preds : String) (r : ResultsR)
    (st' : RegistryState) (res : Except PyErr ResultsR)
    (hload : assoc exp_key st.runResults = some r)
    (h : add_model_run st exp_key run_key preds = (st', res)) :
    res = .ok r ∧
    assoc exp_key st'.runConfigs = some r.config ∧
    assoc exp_key st'.runResults = some r ∧
    st'.events = st.events ++ [.loadedResults exp_key, .updatedConfig exp_key,
      .savedResults exp_key] := by
  simp only [add_model_run, load_run_results, hload, results_add_model_run,
    update_run_config, save_run_results] at h
  rw [Prod.mk.injEq] at h
  obtain ⟨hst, hres⟩ := h
  rw [← hst, ← hres]
  refine ⟨rfl, ?_, ?_, ?_⟩
  · simp [assoc_setA_self]
  · simp [assoc_setA_self]
  · simp [List.append_assoc]

/-- C6 witness: adding a model run "m" to the registered run "k". -/
theorem claim_C6_witness :
    (add_model_run stReg "k" "m" "p").2 = .ok res0 ∧
    assoc "k" (add_model_run stReg "k" "m" "p").1.runConfigs = some res0.config ∧
    assoc "k" (add_model_run stReg "k" "m" "p").1.runResults = some res0 ∧
    (add_model_run stReg "k" "m" "p").1.events = stReg.events ++ [.loadedResults "k",
      .updatedConfig "k", .savedResults "k"] :=
  claim_C6 stReg "k" "m" "p" res0 (add_model_run stReg "k" "m" "p").1
    (add_model_run stReg "k" "m" "p").2 (by rfl) (by rfl)

/-! ## C10: the manual backend's hooks are no-ops -/

/-- C10: ExperimentResults.add_model_run leaves the results object unchanged
and ManualExperimentResults.cleanup performs no deletion; consequently the
top-level add_model_run re-saves a results payload identical to the one it
loaded, and the ExperimentBackend.cleanup body of a manual run removes
nothing beyond the auxiliary Dataset (run keys, configs and results records
are untouched by it). -/
theorem claim_C10 :
    (∀ (r : ResultsR) (run_key preds : String), results_add_model_run r run_key preds = r) ∧
    (∀ st : RegistryState, manual_results_cleanup st = st) ∧
    (∀ (st : RegistryState) (exp_key run_key preds : String) (r : ResultsR),
      assoc exp_key st.runResults = some r →
      (add_model_run st exp_key run_key preds).2 = .ok r ∧
      assoc exp_key (add_model_run st exp_key run_key preds).1.runResults = some r) ∧
    (∀ (st : RegistryState) (exp_key : String) (r : ResultsR),
      assoc exp_key st.runResults = some r →
      backend_cleanup st exp_key =
        ({ st with
            dsets := st.dsets.filter (fun d => decide (¬ d.name = r.exp_dataset_name)),
            events := st.events ++ [.loadedResults exp_key,
              .deletedDataset r.exp_dataset_name] },
          .ok ())) := by
  refine ⟨fun r run_key preds => rfl, fun st => rfl, ?_, ?_⟩
  · intro st exp_key run_key preds r hload
    constructor
    · simp [add_model_run, load_run_results, hload, results_add_model_run]
    · simp [add_model_run, load_run_results, hload, results_add_model_run,
        update_run_config, save_run_results, assoc_setA_self]
  · intro st exp_key r hload
    simp [backend_cleanup, load_run_results, hload, manual_results_cleanup,
      delete_dataset, List.append_assoc]

/-- C10 witness at the registered run "k". -/
theorem claim_C10_witness :
    results_add_model_run res0 "m" "p" = res0 ∧
    manual_results_cleanup st0 = st0 ∧
    ((add_model_run stReg "k" "m" "p").2 = .ok res0 ∧
      assoc "k" (add_model_run stReg "k" "m" "p").1.runResults = some res0) ∧
    backend_cleanup stReg "k" =
      ({ stReg with
          dsets := stReg.dsets.filter (fun d => decide (¬ d.name = res0.exp_dataset_name)),
          events := stReg.events ++ [.loadedResults "k",
            .deletedDataset res0.exp_dataset_name] },
        .ok ()) :=
  ⟨claim_C10.1 res0 "m" "p", claim_C10.2.1 st0,
    claim_C10.2.2.1 stReg "k" "m" "p" res0 (by rfl),
    claim_C10.2.2.2 stReg "k" res0 (by rfl)⟩

/-! ## World-model lemmas -/

lemma get?_some_lt {α : Type} : ∀ (l : List α) (n : Nat) (a : α),
    l.get? n = some a → n < l.length := by
  intro l
  induction l with
  | nil => intro n a h; simp [List.get?] at h
  | cons x rest ih =>
    intro n a h
    cases n with
    | zero => simp
    | succ m =>
      simp only [List.get?] at h
      simpa using Nat.succ_lt_succ (ih m a h)

lemma get?_set_self {α : Type} : ∀ (l : List α) (n : Nat) (a : α),
    n < l.length → (l.set n a).get? n = some a := by
  intro l
  induction l with
  | nil => intro n a h; simp at h
  | cons x rest ih =>
    intro n a h
    cases n with
    | zero => rfl
    | succ m =>
      show (rest.set m a).get? m = some a
      exact ih m a (by simpa using h)

lemma find?_map_name (n : String) (g : DatasetM → DatasetM)
    (hg : ∀ d, (g d).name = d.name) :
    ∀ l : List DatasetM,
      (l.map g).find? (fun d => decide (d.name = n)) =
        (l.find? (fun d => decide (d.name = n))).map g := by
  intro l
  induction l with
  | nil => rfl
  | cons d rest ih =>
    by_cases h : d.name = n
    · rw [List.map_cons,
        List.find?_cons_of_pos _ (by simp [hg, h]),
        List.find?_cons_of_pos _ (by simp [h])]
      rfl
    · rw [List.map_cons,
        List.find?_cons_of_neg _ (by simp [hg, h]),
        List.find?_cons_of_neg _ (by simp [h])]
      exact ih

lemma find?_name_map_if (dn n : String) (F : DatasetM → DatasetM)
    (hF : ∀ d, (F d).name = d.name) (l : List DatasetM) :
    (l.map (fun d => if d.name = dn then F d else d)).find? (fun d => decide (d.name = n))
      = (l.find? (fun d => decide (d.name = n))).map
          (fun d => if d.name = dn then F d else d) := by
  apply find?_map_name
  intro d
  by_cases hdd : d.name = dn
  · simp [hdd, hF]
  · simp [hdd]

lemma findDS_name (w : World) (n : String) (ds : DatasetM) (h : findDS w n = some ds) :
    ds.name = n := by
  have := List.find?_some h
  simpa using this

lemma findDS_mem (w : World) (n : String) (ds : DatasetM) (h : findDS w n = some ds) :
    ds ∈ w.dsets :=
  List.mem_of_find?_eq_some h

lemma wf_spec (w : World) (h : wfW w = true) :
    ∀ ds ∈ w.dsets, ∀ p ∈ ds.idMap,
      ∃ obj, w.heap.get? p.2 = some obj ∧ obj.sid = some p.1 ∧
        obj.dsName = some ds.name ∧
        (∀ fv ∈ obj.fields, fv.1 ∈ ds.schema.map Prod.fst) ∧ p.1 < w.nextId := by
  intro ds hds p hp
  have h1 : wfDS w ds = true := by
    simp only [wfW, List.all_eq_true] at h
    exact h ds hds
  simp only [wfDS, List.all_eq_true] at h1
  have h2 := h1 p hp
  cases hg : w.heap.get? p.2 with
  | none => rw [hg] at h2; simp at h2
  | some obj =>
    rw [hg] at h2
    simp only [Bool.and_eq_true, decide_eq_true_eq, List.all_eq_true] at h2
    obtain ⟨⟨⟨hsid, hdn⟩, hflds⟩, hlt⟩ := h2
    refine ⟨obj, rfl, hsid, hdn, ?_, hlt⟩
    intro fv hfv
    have := hflds fv hfv
    simpa using this

lemma resolve_idem (w : World) (dn : String) (sid : Nat) (w1 : World) (i : Nat)
    (h : resolve w dn sid = (w1, .ok i)) :
    resolve w1 dn sid = (w1, .ok i) := by
  cases hf : findDS w dn with
  | none =>
    simp only [resolve, hf] at h
    simp at h
  | some ds =>
    cases hm : assoc sid ds.idMap with
    | some j =>
      simp only [resolve, hf, hm, Prod.mk.injEq] at h
      obtain ⟨hw, hj⟩ := h
      injection hj with hj
      subst hw
      subst hj
      simp only [resolve, hf, hm]
    | none =>
      cases hs : assoc sid ds.store with
      | none =>
        simp only [resolve, hf, hm, hs] at h
        simp at h
      | some doc =>
        simp only [resolve, hf, hm, hs, Prod.mk.injEq] at h
        obtain ⟨hw, hi⟩ := h
        injection hi with hi
        subst hw
        subst hi
        have hname := findDS_name w dn ds hf
        have hF : ∀ d : DatasetM,
            ({ d with idMap := (sid, w.heap.length) :: d.idMap } : DatasetM).name = d.name := by
          intro d
          rfl
        have hfind := find?_name_map_if dn dn
          (fun d => { d with idMap := (sid, w.heap.length) :: d.idMap }) hF w.dsets
        have hf' : List.find? (fun d => decide (d.name = dn)) w.dsets = some ds := hf
        simp [resolve, findDS, hfind, hf', hname, assoc_cons_self]

/-! ## C7: singleton-per-id and view resolution through the identity map -/

/-- C7: after D.get(X) has produced a Sample object, calling D.get(X) again
returns the very same heap index with the world unchanged (same storeReads:
a cache hit does no store round trip), and a view whose first matching
stored document is X resolves to that same object.  Modelled from the spec:
the Dataset and View classes are not under src/, only their unit tests
are. -/
theorem claim_C7 (w : World) (dn : String) (sid : Nat) (w1 : World) (i : Nat)
    (pred : List (String × Value) → Bool) (ds1 : DatasetM) (doc : List (String × Value))
    (h : dataset_get w dn sid = (w1, .ok i))
    (hds1 : findDS w1 dn = some ds1)
    (hfind : ds1.store.find? (fun d => pred d.2) = some (sid, doc)) :
    dataset_get w1 dn sid = (w1, .ok i) ∧
    view_first_match w1 dn pred = (w1, .ok i) := by
  have h2 : resolve w1 dn sid = (w1, .ok i) := resolve_idem w dn sid w1 i h
  refine ⟨h2, ?_⟩
  simp only [view_first_match, hds1, hfind]
  exact h2

/-- C7 witness: a cache miss hydrates document 0 of dataset "d"; the second
lookup and a filepath-match view both return the cached object with the
world unchanged. -/
theorem claim_C7_witness :
    dataset_get (dataset_get wStore "d" 0).1 "d" 0 = ((dataset_get wStore "d" 0).1, .ok 0) ∧
    view_first_match (dataset_get wStore "d" 0).1 "d"
        (fun flds => decide (assoc "filepath" flds = some (Value.vStr "a.png")))
      = ((dataset_get wStore "d" 0).1, .ok 0) :=
  claim_C7 wStore "d" 0 (dataset_get wStore "d" 0).1 0
    (fun flds => decide (assoc "filepath" flds = some (Value.vStr "a.png")))
    ⟨"d", [("filepath", .scalarK)], [(0, 0)], [(0, [("filepath", .vStr "a.png")])]⟩
    [("filepath", .vStr "a.png")]
    (by rfl) (by rfl) (by rfl)

/-! ## C8: cross-dataset copy of attached samples, in-place attach of
detached ones -/

/-- C8: adding a Sample attached to D1 into D2 creates a fresh id distinct
from the original id, a distinct value-copied object cached for D2, and
leaves the original object and its D1 lookup untouched; adding a detached
Sample attaches the same object in place, which becomes the cached
singleton for its new id.  Modelled from the spec: the Dataset and Sample
classes are not under src/, only their unit tests are. -/
theorem claim_C8 :
    (∀ (w : World) (d1n d2n : String) (flds : List (String × Value)) (sid i : Nat)
        (ds1 ds2 : DatasetM) (w' : World) (newId : Nat),
      wfW w = true →
      findDS w d1n = some ds1 →
      findDS w d2n = some ds2 →
      w.heap.get? i = some ⟨some sid, some d1n, flds⟩ →
      assoc sid ds1.idMap = some i →
      add_sample w d2n i = (w', .ok newId) →
      newId ≠ sid ∧
      w.heap.length ≠ i ∧
      w'.heap.get? (w.heap.length) = some ⟨some newId, some d2n, flds⟩ ∧
      w'.heap.get? i = some ⟨some sid, some d1n, flds⟩ ∧
      dataset_get w' d2n newId = (w', .ok (w.heap.length)) ∧
      dataset_get w' d1n sid = (w', .ok i)) ∧
    (∀ (w : World) (dn : String) (flds : List (String × Value)) (i : Nat)
        (ds : DatasetM) (w' : World) (newId : Nat),
      findDS w dn = some ds →
      w.heap.get? i = some ⟨none, none, flds⟩ →
      add_sample w dn i = (w', .ok newId) →
      w'.heap.get? i = some ⟨some newId, some dn, flds⟩ ∧
      dataset_get w' dn newId = (w', .ok i)) := by
  constructor
  · intro w d1n d2n flds sid i ds1 ds2 w' newId hwf hf1 hf2 hobj hmap hadd
    have hds1mem := findDS_mem w d1n ds1 hf1
    have hpm : (sid, i) ∈ ds1.idMap := assoc_some_mem hmap
    obtain ⟨obj', hg', hsid', hdn', hflds', hlt'⟩ := wf_spec w hwf ds1 hds1mem (sid, i) hpm
    have hilt : i < w.heap.length := get?_some_lt w.heap i _ hobj
    simp only [add_sample, hf2, hobj, Prod.mk.injEq] at hadd
    obtain ⟨hw, hn⟩ := hadd
    injection hn with hn
    subst hw
    subst hn
    have hF2 : ∀ d : DatasetM,
        ({ d with
            idMap := (w.nextId, w.heap.length) :: d.idMap,
            store := d.store ++ [(w.nextId, flds)],
            schema := expandSchema d.schema flds } : DatasetM).name = d.name := by
      intro d
      rfl
    refine ⟨by omega, by omega, ?_, ?_, ?_, ?_⟩
    · show (w.heap ++ [(⟨some w.nextId, some d2n, flds⟩ : SampleObj)]).get? w.heap.length
          = some ⟨some w.nextId, some d2n, flds⟩
      exact List.get?_concat_length _ _
    · show (w.heap ++ [(⟨some w.nextId, some d2n, flds⟩ : SampleObj)]).get? i
          = some ⟨some sid, some d1n, flds⟩
      rw [List.get?_append hilt]
      exact hobj
    · have hfind2 := find?_name_map_if d2n d2n
        (fun d =>
          { d with
              idMap := (w.nextId, w.heap.length) :: d.idMap,
              store := d.store ++ [(w.nextId, flds)],
              schema := expandSchema d.schema flds }) hF2 w.dsets
      have hf2' : List.find? (fun d => decide (d.name = d2n)) w.dsets = some ds2 := hf2
      have hname2 := findDS_name w d2n ds2 hf2
      simp [dataset_get, resolve, findDS, hfind2, hf2', hname2, assoc_cons_self]
    · have hfind1 := find?_name_map_if d2n d1n
        (fun d =>
          { d with
              idMap := (w.nextId, w.heap.length) :: d.idMap,
              store := d.store ++ [(w.nextId, flds)],
              schema := expandSchema d.schema flds }) hF2 w.dsets
      have hf1' : List.find? (fun d => decide (d.name = d1n)) w.dsets = some ds1 := hf1
      have hne' : w.nextId ≠ sid := by omega
      by_cases hcase : ds1.name = d2n
      · simp [dataset_get, resolve, findDS, hfind1, hf1', hcase,
          assoc_cons_ne sid w.nextId w.heap.length ds1.idMap hne', hmap]
      · simp [dataset_get, resolve, findDS, hfind1, hf1', hcase, hmap]
  · intro w dn flds i ds w' newId hds hobj hadd
    simp only [add_sample, hds, hobj, Prod.mk.injEq] at hadd
    obtain ⟨hw, hn⟩ := hadd
    injection hn with hn
    subst hw
    subst hn
    constructor
    · show (w.heap.set i ⟨some w.nextId, some dn, flds⟩).get? i
          = some ⟨some w.nextId, some dn, flds⟩
      exact get?_set_self _ _ _ (get?_some_lt w.heap i _ hobj)
    · have hF : ∀ d : DatasetM,
          ({ d with
              idMap := (w.nextId, i) :: d.idMap,
              store := d.store ++ [(w.nextId, flds)],
              schema := expandSchema d.schema flds } : DatasetM).name = d.name := by
        intro d
        rfl
      have hfind := find?_name_map_if dn dn
        (fun d =>
          { d with
              idMap := (w.nextId, i) :: d.idMap,
              store := d.store ++ [(w.nextId, flds)],
              schema := expandSchema d.schema flds }) hF w.dsets
      have hf' : List.find? (fun d => decide (d.name = dn)) w.dsets = some ds := hds
      have hname := findDS_name w dn ds hds
      simp [dataset_get, resolve, findDS, hfind, hf', hname, assoc_cons_self]

/-- C8 witness: copying the attached sample of "d1" into "d2", and attaching
a detached sample to "d". -/
theorem claim_C8_witness :
    (1 ≠ 0 ∧
      wAttached.heap.length ≠ 0 ∧
      (add_sample wAttached "d2" 0).1.heap.get? wAttached.heap.length
          = some ⟨some 1, some "d2", [("filepath", .vStr "a.png")]⟩ ∧
      (add_sample wAttached "d2" 0).1.heap.get? 0
          = some ⟨some 0, some "d1", [("filepath", .vStr "a.png")]⟩ ∧
      dataset_get (add_sample wAttached "d2" 0).1 "d2" 1
          = ((add_sample wAttached "d2" 0).1, .ok wAttached.heap.length) ∧
      dataset_get (add_sample wAttached "d2" 0).1 "d1" 0
          = ((add_sample wAttached "d2" 0).1, .ok 0)) ∧
    ((add_sample wDetached "d" 0).1.heap.get? 0
          = some ⟨some 5, some "d", [("filepath", .vStr "b.png")]⟩ ∧
      dataset_get (add_sample wDetached "d" 0).1 "d" 5
          = ((add_sample wDetached "d" 0).1, .ok 0)) :=
  ⟨claim_C8.1 wAttached "d1" "d2" [("filepath", .vStr "a.png")] 0 0
      ⟨"d1", [("filepath", .scalarK)], [(0, 0)], [(0, [("filepath", .vStr "a.png")])]⟩
      ⟨"d2", [], [], []⟩
      (add_sample wAttached "d2" 0).1 1
      (by decide) (by rfl) (by rfl) (by rfl) (by rfl) (by rfl),
    claim_C8.2 wDetached "d" [("filepath", .vStr "b.png")] 0
      ⟨"d", [("filepath", .scalarK)], [], []⟩
      (add_sample wDetached "d" 0).1 5
      (by rfl) (by rfl) (by rfl)⟩

/-! ## C9: schema broadcast to cached samples -/

/-- C9: after a successful add_field(name, kind) on a dataset, the heap and
the store-read count are unchanged, and every sample cached in that
dataset's identity map exposes the new field with its kind-appropriate
default (None for scalar kinds, the empty sequence for list kinds) — the
access reads only the heap and the schema registry.  Modelled from the
spec: the schema registry is not under src/, only its unit tests are. -/
theorem claim_C9 (w : World) (dn fname : String) (kind : FieldKind) (w' : World)
    (ds' : DatasetM) (sid i : Nat)
    (hwf : wfW w = true)
    (hadd : add_field w dn fname kind = (w', .ok ()))
    (hds' : findDS w' dn = some ds')
    (hmem : (sid, i) ∈ ds'.idMap) :
    w'.heap = w.heap ∧ w'.storeReads = w.storeReads ∧
    get_field w' i fname = .ok (defaultValue kind) := by
  cases hf : findDS w dn with
  | none =>
    simp only [add_field, hf] at hadd
    simp at hadd
  | some ds =>
    by_cases hin : fname ∈ ds.schema.map Prod.fst
    · simp only [add_field, hf, if_pos hin] at hadd
      simp at hadd
    · simp only [add_field, hf, if_neg hin, Prod.mk.injEq] at hadd
      obtain ⟨hw, _⟩ := hadd
      subst hw
      have hname := findDS_name w dn ds hf
      have hF : ∀ d : DatasetM,
          ({ d with schema := d.schema ++ [(fname, kind)] } : DatasetM).name = d.name := by
        intro d
        rfl
      have hfind := find?_name_map_if dn dn
        (fun d => { d with schema := d.schema ++ [(fname, kind)] }) hF w.dsets
      have hf' : List.find? (fun d => decide (d.name = dn)) w.dsets = some ds := hf
      have hup : findDS
          ({ w with
              dsets := w.dsets.map
                (fun d =>
                  if d.name = dn then { d with schema := d.schema ++ [(fname, kind)] } else d) }
            : World) dn
          = some { ds with schema := ds.schema ++ [(fname, kind)] } := by
        show (w.dsets.map _).find? _ = _
        rw [hfind, hf']
        simp [hname]
      have hds'eq : ds' = { ds with schema := ds.schema ++ [(fname, kind)] } := by
        rw [hup] at hds'
        exact (Option.some.inj hds').symm
      have hmem' : (sid, i) ∈ ds.idMap := by
        rw [hds'eq] at hmem
        simpa using hmem
      obtain ⟨obj, hg, hsid, hdn2, hflds, hlt⟩ :=
        wf_spec w hwf ds (findDS_mem w dn ds hf) (sid, i) hmem'
      refine ⟨rfl, rfl, ?_⟩
      have hnone : assoc fname obj.fields = none := by
        apply assoc_none_of_not_mem
        intro hc
        obtain ⟨fv, hfv, hfst⟩ := List.mem_map.mp hc
        exact hin (hfst ▸ hflds fv hfv)
      have hg2 : w.heap.get? i = some obj := hg
      simp only [get_field, hg2, hnone, hdn2, hname, hup]
      rw [assoc_append_single fname kind ds.schema (assoc_none_of_not_mem hin)]

/-- C9 witness: adding scalar field "age" to dataset "d" makes the cached
sample at heap index 0 expose it as None without any state change. -/
theorem claim_C9_witness :
    (add_field wCached "d" "age" .scalarK).1.heap = wCached.heap ∧
    (add_field wCached "d" "age" .scalarK).1.storeReads = wCached.storeReads ∧
    get_field (add_field wCached "d" "age" .scalarK).1 0 "age"
        = .ok (defaultValue .scalarK) :=
  claim_C9 wCached "d" "age" .scalarK (add_field wCached "d" "age" FieldKind.scalarK).1
    ⟨"d", [("filepath", .scalarK), ("age", .scalarK)], [(0, 0)],
      [(0, [("filepath", .vStr "a.png")])]⟩
    0 0 (by decide) (by rfl) (by rfl) (by decide)
